import Mathlib

/-
  Verification development for the eappx container reader.

  Sources embedded here: src/lib.rs (container parsing, per-file streaming,
  extraction), src/crypto.rs (tweak derivation), src/keys.rs (key-file
  parsing), src/utils.rs (alignment, UTF-16 helpers), src/blockmap.rs and
  src/bundle_manifest.rs (the fields the extraction engine consumes).

  Machine integers are modelled as Nat with explicit reductions mod 2^w.
  Byte streams are List Nat (each entry a byte value).  Fallible code
  returns Option / an Outcome type; Rust panics (assert_eq!, unwrap,
  panic!) are modelled by a dedicated Outcome constructor, distinct from
  returned errors.
-/

namespace EAppx

/-- Little-endian byte list to Nat. -/
def leToNat : List Nat → Nat
  | [] => 0
  | b :: bs => b % 256 + 256 * leToNat bs

/-- Nat to fixed-width little-endian byte list. -/
def leBytes : Nat → Nat → List Nat
  | 0, _ => []
  | w + 1, n => n % 256 :: leBytes w (n / 256)

/-- Nat to fixed-width big-endian byte list. -/
def beBytes (w n : Nat) : List Nat := (leBytes w n).reverse

/-- Concatenate a list of byte lists. -/
def concatBytes : List (List Nat) → List Nat
  | [] => []
  | l :: ls => l ++ concatBytes ls

/-! ### SHA-256 (the sha2 crate; FIPS 180-4) -/

/-- Reduce to a 32-bit word. -/
def w32 (n : Nat) : Nat := n % 4294967296

/-- Bitwise complement on 32-bit words. -/
def wnot (x : Nat) : Nat := 4294967295 ^^^ (w32 x)

/-- Right rotation on 32-bit words. -/
def rotr (n x : Nat) : Nat := w32 ((x >>> n) ||| (x <<< (32 - n)))

def bsig0 (x : Nat) : Nat := rotr 2 x ^^^ rotr 13 x ^^^ rotr 22 x
def bsig1 (x : Nat) : Nat := rotr 6 x ^^^ rotr 11 x ^^^ rotr 25 x
def ssig0 (x : Nat) : Nat := rotr 7 x ^^^ rotr 18 x ^^^ (x >>> 3)
def ssig1 (x : Nat) : Nat := rotr 17 x ^^^ rotr 19 x ^^^ (x >>> 10)
def chf (x y z : Nat) : Nat := (x &&& y) ^^^ (wnot x &&& z)
def majf (x y z : Nat) : Nat := (x &&& y) ^^^ (x &&& z) ^^^ (y &&& z)

/-- The 64 SHA-256 round constants. -/
def shaK : List Nat :=
  [1116352408, 1899447441, 3049323471, 3921009573,
   961987163, 1508970993, 2453635748, 2870763221,
   3624381080, 310598401, 607225278, 1426881987,
   1925078388, 2162078206, 2614888103, 3248222580,
   3835390401, 4022224774, 264347078, 604807628,
   770255983, 1249150122, 1555081692, 1996064986,
   2554220882, 2821834349, 2952996808, 3210313671,
   3336571891, 3584528711, 113926993, 338241895,
   666307205, 773529912, 1294757372, 1396182291,
   1695183700, 1986661051, 2177026350, 2456956037,
   2730485921, 2820302411, 3259730800, 3345764771,
   3516065817, 3600352804, 4094571909, 275423344,
   430227734, 506948616, 659060556, 883997877,
   958139571, 1322822218, 1537002063, 1747873779,
   1955562222, 2024104815, 2227730452, 2361852424,
   2428436474, 2756734187, 3204031479, 3329325298]

/-- SHA-256 initial hash state. -/
def shaH0 : List Nat :=
  [1779033703, 3144134277, 1013904242, 2773480762,
   1359893119, 2600822924, 528734635, 1541459225]

/-- SHA-256 padding: append 0x80, zeros, and the 64-bit big-endian bit length. -/
def padMessage (msg : List Nat) : List Nat :=
  let len := msg.length
  let padLen := (64 - (len + 9) % 64) % 64
  msg ++ [0x80] ++ List.replicate padLen 0 ++ beBytes 8 (8 * len)

/-- Group bytes into big-endian 32-bit words. -/
def toWordsBE : List Nat → List Nat
  | b0 :: b1 :: b2 :: b3 :: rest =>
      (((b0 * 256 + b1) * 256 + b2) * 256 + b3) :: toWordsBE rest
  | _ => []

/-- Extend the 16-word message schedule by `n` further words. -/
def extendSched (w : List Nat) : Nat → List Nat
  | 0 => w
  | n + 1 =>
      let l := w.length
      extendSched
        (w ++ [w32 (ssig1 (w.getD (l - 2) 0) + w.getD (l - 7) 0 +
                    ssig0 (w.getD (l - 15) 0) + w.getD (l - 16) 0)]) n

/-- One SHA-256 round on the 8-word working state. -/
def shaRound (st : List Nat) (k w : Nat) : List Nat :=
  match st with
  | [a, b, c, d, e, f, g, h] =>
      let t1 := w32 (h + bsig1 e + chf e f g + k + w)
      let t2 := w32 (bsig0 a + majf a b c)
      [w32 (t1 + t2), a, b, c, w32 (d + t1), e, f, g]
  | other => other

/-- Compress one 64-byte block into the hash state. -/
def shaCompress (h : List Nat) (block : List Nat) : List Nat :=
  let ws := extendSched (toWordsBE block) 48
  let st := (List.zip shaK ws).foldl (fun s kw => shaRound s kw.1 kw.2) h
  List.zipWith (fun x y => w32 (x + y)) h st

/-- Split a byte list into 64-byte chunks (fuel-bounded; fuel = list length
suffices since each step consumes at least one element). -/
def chunks64 : Nat → List Nat → List (List Nat)
  | 0, _ => []
  | _, [] => []
  | fuel + 1, l => l.take 64 :: chunks64 fuel (l.drop 64)

/-- SHA-256 of a byte list, as 32 bytes. -/
def sha256Bytes (msg : List Nat) : List Nat :=
  let p := padMessage msg
  let h := (chunks64 p.length p).foldl shaCompress shaH0
  concatBytes (h.map (beBytes 4))

/-! ### utils.rs: sector alignment and UTF-16 encoding -/

def SECTOR_SIZE : Nat := 0x200

def BLOCK_SIZE : Nat := 0x10000

/-- Rust `utils::align_to_sector`: `(((total_size - 1) / SECTOR_SIZE) + 1) * SECTOR_SIZE`.
The Rust usize subtraction underflows for input 0 (the spec declares the
function undefined there); Nat subtraction truncates instead. -/
def alignToSector (totalSize : Nat) : Nat :=
  ((totalSize - 1) / SECTOR_SIZE + 1) * SECTOR_SIZE

/-- UTF-16 code units of one Unicode scalar value (surrogate pair above 0xFFFF),
as produced by `char::encode_utf16`. -/
def charUtf16 (c : Nat) : List Nat :=
  if c < 0x10000 then [c]
  else [0xD800 + (c - 0x10000) / 0x400, 0xDC00 + (c - 0x10000) % 0x400]

/-- Rust `utils::str_to_utf16_bytes`: UTF-16 code units, each as two little-endian
bytes, no BOM. -/
def strToUtf16Bytes (s : String) : List Nat :=
  concatBytes ((concatBytes (s.data.map (fun c => charUtf16 c.toNat))).map (leBytes 2))

/-- ASCII lowercasing of one scalar value.  `str::to_lowercase` performs Unicode
simple lowering; every string this development feeds it is ASCII, where the two
agree. -/
def toLowerChar (c : Nat) : Nat :=
  if 65 ≤ c ∧ c ≤ 90 then c + 32 else c

/-- ASCII restriction of `str::to_lowercase` (see `toLowerChar`). -/
def toLowerStr (s : String) : String :=
  ⟨s.data.map (fun c => Char.ofNat (toLowerChar c.toNat))⟩

/-! ### crypto.rs: tweak derivation -/

/-- Rust `crypto::fold_hash_xor`: seed with the first 8 bytes of the hash, then XOR
each subsequent 8-byte chunk in.  (The source slices exact 8-byte chunks; every
caller passes a 32-byte SHA-256 digest.) -/
def foldHashGo : Nat → List Nat → List Nat → List Nat
  | 0, folded, _ => folded
  | _, folded, [] => folded
  | fuel + 1, folded, rest =>
      foldHashGo fuel (List.zipWith (fun x y => x ^^^ y) folded (rest.take 8)) (rest.drop 8)

def foldHashXor (hash : List Nat) : List Nat :=
  foldHashGo hash.length (hash.take 8) (hash.drop 8)

/-- Rust `crypto::hash_for_file_tweak`: SHA-256 over UTF-16LE(path prefixed with a
backslash when missing) concatenated with UTF-16LE(lowercased pfn). -/
def hashForFileTweak (filepath pfn : String) : List Nat :=
  let prefixedPath :=
    match filepath.data with
    | c :: _ => if c.toNat = 92 then filepath else "\\" ++ filepath
    | [] => "\\" ++ filepath
  let lowercasePfn := toLowerStr pfn
  sha256Bytes (strToUtf16Bytes prefixedPath ++ strToUtf16Bytes lowercasePfn)

/-- Rust `crypto::get_tweak_value`: fold the tweak hash and read the first 8 bytes
as a little-endian u64 (zero-extended to u128, which for Nat is the identity). -/
def getTweakValue (filepath pfn : String) : Nat :=
  leToNat ((foldHashXor (hashForFileTweak filepath pfn)).take 8)

/-! ### error.rs: error taxonomy, plus an Outcome type distinguishing Rust
panics (assert_eq!, unwrap, panic!) from returned errors -/

inductive Err where
  | decodeErr : String → Err
  | ioErr : String → Err
  | dataErr : String → Err
deriving DecidableEq, Repr

inductive Outcome (α : Type) where
  | ok : α → Outcome α
  | err : Err → Outcome α
  | panicWith : String → Outcome α
deriving DecidableEq, Repr

/-- Whether an outcome is a returned `Error::DataError`. -/
def Outcome.isDataErr {α : Type} : Outcome α → Bool
  | .err (.dataErr _) => true
  | _ => false

/-- Whether an outcome is a returned `Error::DecodeError`. -/
def Outcome.isDecodeErr {α : Type} : Outcome α → Bool
  | .err (.decodeErr _) => true
  | _ => false

/-! ### keys.rs: KeyId and the textual key-file parser -/

/-- A GUID is 16 bytes in RFC field order.  `Uuid::from_bytes_le` reads the
first three fields little-endian (4, 2, 2 bytes byte-swapped) and the last
8 bytes as-is. -/
def uuidFromBytesLE (bs : List Nat) : List Nat :=
  (bs.take 4).reverse ++ ((bs.drop 4).take 2).reverse ++
    ((bs.drop 6).take 2).reverse ++ (bs.drop 8).take 8

/-- Rust `SHORT_KEY_GUID_PREFIX = uuid!("BB1755DB-5052-4B10-B2AB-F3ABF5CA5B41")`
in RFC byte order. -/
def shortKeyGuid : List Nat :=
  [0xBB, 0x17, 0x55, 0xDB, 0x50, 0x52, 0x4B, 0x10,
   0xB2, 0xAB, 0xF3, 0xAB, 0xF5, 0xCA, 0x5B, 0x41]

/-- Rust `keys::KeyId`: numeric tag or a pair of GUIDs.  In `KeyId::Guid((a, b))`
the binary reader fills `a` from the first 16 bytes and `b` from the last 16. -/
inductive KeyId where
  | numeric : Nat → KeyId
  | guid : List Nat → List Nat → KeyId
deriving DecidableEq, Repr

/-- Rust `KeyCollection::from_str`, inner branch over the base64-decoded key-id
bytes (keys.rs lines 163-180): 16 bytes put the fixed short-key GUID in the
first component and the decoded GUID in the second; 32 bytes decode both
halves little-endian; other lengths are a returned DecodeError. -/
def parseKeyIdFromBytes (bs : List Nat) : Outcome KeyId :=
  if bs.length = 16 then
    .ok (.guid shortKeyGuid (uuidFromBytesLE bs))
  else if bs.length = 32 then
    .ok (.guid (uuidFromBytesLE (bs.take 16)) (uuidFromBytesLE (bs.drop 16)))
  else
    .err (.decodeErr "Unsupported KeyId Guid length")

/-- The widening the spec describes for a 16-byte key-id, written from the
spec's words for comparison with `parseKeyIdFromBytes`: using the spec's
`(lowGuid, highGuid)` component convention, the decoded short GUID as the low
(first) half and the fixed short-key GUID as the high (second) half. -/
def shortKeyIdPerSpec (bs : List Nat) : KeyId :=
  .guid (uuidFromBytesLE bs) shortKeyGuid

/-- ASCII restriction of `char::is_whitespace` (all key-file inputs the
claims touch are ASCII). -/
def isWsChar (c : Char) : Bool :=
  c.toNat = 32 || c.toNat = 9 || c.toNat = 10 || c.toNat = 13 ||
  c.toNat = 11 || c.toNat = 12

/-- Rust `str::trim` on a character list. -/
def trimChars (l : List Char) : List Char :=
  ((l.dropWhile isWsChar).reverse.dropWhile isWsChar).reverse

def startsWithChars (pre l : List Char) : Bool :=
  l.take pre.length == pre

/-- Rust `str::split` on the newline character. -/
def splitNlGo : List Char → List Char → List (List Char)
  | [], acc => [acc.reverse]
  | c :: rest, acc =>
      if c.toNat = 10 then acc.reverse :: splitNlGo rest []
      else splitNlGo rest (c :: acc)

def splitLines (l : List Char) : List (List Char) := splitNlGo l []

/-- Rust `str::split_whitespace`: whitespace-separated tokens, no empties. -/
def splitWsGo : List Char → List Char → List (List Char)
  | [], acc => if acc.isEmpty then [] else [acc.reverse]
  | c :: rest, acc =>
      if isWsChar c then
        if acc.isEmpty then splitWsGo rest [] else acc.reverse :: splitWsGo rest []
      else splitWsGo rest (c :: acc)

def splitWhitespaceChars (l : List Char) : List (List Char) := splitWsGo l []

/-- Rust `str::replace` removing every double-quote character. -/
def stripQuotes (l : List Char) : List Char := l.filter (fun c => c.toNat ≠ 34)

/-- Rust `str::parse::<u16>`: optional leading plus sign, decimal digits, value
at most 65535. -/
def parseU16 (l : List Char) : Option Nat :=
  let l' := match l with
    | c :: rest => if c.toNat = 43 then rest else l
    | [] => l
  if l'.isEmpty then none
  else if l'.all (fun c => 48 ≤ c.toNat && c.toNat ≤ 57) then
    let v := l'.foldl (fun a c => a * 10 + (c.toNat - 48)) 0
    if v ≤ 65535 then some v else none
  else none

/-- Rust `HashMap::insert` on the association-list model of the key collection. -/
def insertKey (keys : List (KeyId × List Nat)) (kid : KeyId) (v : List Nat) :
    List (KeyId × List Nat) :=
  if keys.any (fun e => e.1 == kid) then
    keys.map (fun e => if e.1 == kid then (kid, v) else e)
  else keys ++ [(kid, v)]

/-- The line loop of `KeyCollection::from_str`.  `b64` stands for
`base64ct::Base64::decode_vec` (an external crate), returning the decoded
bytes on success. -/
def parseKeyLines (b64 : List Char → Option (List Nat)) :
    List (List Char) → List (KeyId × List Nat) → Outcome (List (KeyId × List Nat))
  | [], keys => .ok keys
  | line :: rest, keys =>
      let line := trimChars line
      if line.isEmpty then parseKeyLines b64 rest keys
      else if (match line with | c :: _ => c.toNat = 34 | [] => false : Bool) then
        let parts := splitWhitespaceChars line
        match parts.get? 0, parts.get? 1 with
        | some p0, some p1 =>
          let keyIdStr := stripQuotes p0
          let keyStr := stripQuotes p1
          match b64 keyStr with
          | none => .err (.decodeErr "invalid Base64")
          | some key =>
            match b64 keyIdStr with
            | some bytesKeyid =>
                match parseKeyIdFromBytes bytesKeyid with
                | .ok kid => parseKeyLines b64 rest (insertKey keys kid key)
                | .err e => .err e
                | .panicWith m => .panicWith m
            | none =>
                match parseU16 keyIdStr with
                | some n => parseKeyLines b64 rest (insertKey keys (.numeric n) key)
                | none => parseKeyLines b64 rest keys
        | _, _ => .panicWith "called Option::unwrap on a None value"
      else parseKeyLines b64 rest keys

/-- Rust `KeyCollection::from_str`: trim, require the `[Keys]` magic (a panic when
absent), then process the lines of the trimmed text. -/
def keyCollectionFromStr (b64 : List Char → Option (List Nat)) (s : List Char) :
    Outcome (List (KeyId × List Nat)) :=
  let data := trimChars s
  if startsWithChars ("[Keys]".data) data = false then
    .panicWith "Invalid keyfile magic, expected [Keys]"
  else parseKeyLines b64 (splitLines data) []

/-! ### lib.rs: footers, header, binary parsing -/

/-- Rust `EAppxFooter` (binrw little-endian record: four u16 then four u64). -/
structure EAppxFooter where
  magic : Nat
  footer_size : Nat
  key_id_index : Nat
  compression_type : Nat
  file_id : Nat
  offset_to_file : Nat
  uncompressed_length : Nat
  compressed_length : Nat
deriving DecidableEq, Repr

/-- Rust `FileInfo`. -/
structure FileInfo where
  key_id_index : Nat
  compression_type : Nat
  offset_to_file : Nat
  uncompressed_length : Nat
  compressed_length : Nat
  filehash : Option (List Nat)
  block_hashes : Option (List (List Nat))
deriving DecidableEq, Repr

/-- Rust `impl From<&EAppxFooter> for FileInfo`. -/
def fileInfoOfFooter (f : EAppxFooter) : FileInfo :=
  { key_id_index := f.key_id_index
    compression_type := f.compression_type
    offset_to_file := f.offset_to_file
    uncompressed_length := f.uncompressed_length
    compressed_length := f.compressed_length
    filehash := none
    block_hashes := none }

/-- Read `width` bytes little-endian at `pos`; `none` past end-of-stream. -/
def readLE (data : List Nat) (pos width : Nat) : Option Nat :=
  if pos + width ≤ data.length then some (leToNat ((data.drop pos).take width))
  else none

/-- Rust `std::mem::size_of::<EAppxFooter>()`: four u16 (8 bytes) followed by four
u64 (32 bytes), 8-aligned with no padding, so 40 bytes — which is also the
width of the binrw on-disk record. -/
def sizeOfEAppxFooter : Nat := 40

/-- Rust `EAppxHeader::footer_count`: `footer_length / size_of::<EAppxFooter>()`. -/
def footerCount (footer_length : Nat) : Nat := footer_length / sizeOfEAppxFooter

/-- Rust `EAppxFooter::read` at `pos`: the eight fields in order, little-endian;
no magic check of any kind; returns the footer and the next position. -/
def parseFooter (data : List Nat) (pos : Nat) : Option (EAppxFooter × Nat) := do
  let m ← readLE data pos 2
  let fs ← readLE data (pos + 2) 2
  let ki ← readLE data (pos + 4) 2
  let ct ← readLE data (pos + 6) 2
  let fid ← readLE data (pos + 8) 8
  let off ← readLE data (pos + 16) 8
  let ul ← readLE data (pos + 24) 8
  let cl ← readLE data (pos + 32) 8
  pure ({ magic := m, footer_size := fs, key_id_index := ki, compression_type := ct,
          file_id := fid, offset_to_file := off, uncompressed_length := ul,
          compressed_length := cl }, pos + 40)

/-- Rust `EAppxFile::read_footers`: seek to `offset` and read `count` consecutive
records.  The source unwraps each read, so a short stream is a panic; the
model returns `none` for that case. -/
def readFooters (data : List Nat) : Nat → Nat → Option (List EAppxFooter)
  | _, 0 => some []
  | off, n + 1 =>
      match parseFooter data off with
      | none => none
      | some (f, off') => (readFooters data off' n).map (f :: ·)

/-- Rust `EAppxMagic`: the three accepted container magics. -/
inductive EAppxMagic where
  | EXPH
  | EXSH
  | EXBH
deriving DecidableEq, Repr

/-- Binary-layer parse failure (binrw): a bad magic or end of stream. -/
inductive BinErr where
  | badMagic
  | eof
deriving DecidableEq, Repr

/-- binrw magic dispatch for `EAppxMagic` (a little-endian u32). -/
def parseMagic (data : List Nat) (pos : Nat) : Except BinErr (EAppxMagic × Nat) :=
  match readLE data pos 4 with
  | none => .error .eof
  | some v =>
      if v = 0x48505845 then .ok (.EXPH, pos + 4)
      else if v = 0x48535845 then .ok (.EXSH, pos + 4)
      else if v = 0x48425845 then .ok (.EXBH, pos + 4)
      else .error .badMagic

/-- Rust `EAppxHeader` (parsed form; the write-only calculated length fields are
represented by the lengths of the lists). -/
structure EAppxHeader where
  magic : EAppxMagic
  header_size : Nat
  version : Nat
  footer_offset : Nat
  footer_length : Nat
  file_count : Nat
  signature_offset : Nat
  signature_compression_type : Nat
  signature_uncompressed_length : Nat
  signature_length : Nat
  code_integrity_offset : Nat
  code_integrity_compression_type : Nat
  code_integrity_uncompressed_length : Nat
  code_integrity_length : Nat
  block_map_file_id : Nat
  key_length : Nat
  key_ids : List KeyId
  package_full_name : List Nat
  crypto_algo : List Nat
  diffusion_support_enabled : Nat
  block_map_hash_algo : List Nat
  block_map_hash : List Nat
deriving DecidableEq, Repr

def readLEx (data : List Nat) (pos w : Nat) : Except BinErr (Nat × Nat) :=
  match readLE data pos w with
  | some v => .ok (v, pos + w)
  | none => .error .eof

/-- Binary `KeyId::read_options` (little-endian): 32 bytes forming two GUIDs. -/
def readKeyIds (data : List Nat) : Nat → Nat → Except BinErr (List KeyId × Nat)
  | pos, 0 => .ok ([], pos)
  | pos, n + 1 =>
      if pos + 32 ≤ data.length then
        let bs := (data.drop pos).take 32
        let kid := KeyId.guid (uuidFromBytesLE (bs.take 16)) (uuidFromBytesLE (bs.drop 16))
        match readKeyIds data (pos + 32) n with
        | .ok (rest, p') => .ok (kid :: rest, p')
        | .error e => .error e
      else .error .eof

/-- Read `n` little-endian u16 values. -/
def readU16s (data : List Nat) : Nat → Nat → Except BinErr (List Nat × Nat)
  | pos, 0 => .ok ([], pos)
  | pos, n + 1 =>
      match readLE data pos 2 with
      | none => .error .eof
      | some v =>
          match readU16s data (pos + 2) n with
          | .ok (rest, p') => .ok (v :: rest, p')
          | .error e => .error e

/-- Read `n` raw bytes. -/
def readNBytes (data : List Nat) (pos n : Nat) : Except BinErr (List Nat × Nat) :=
  if pos + n ≤ data.length then .ok ((data.drop pos).take n, pos + n)
  else .error .eof

/-- The field sequence of `EAppxHeader::read` after the magic. -/
def parseHeaderAfterMagic (data : List Nat) (m : EAppxMagic) (p : Nat) :
    Except BinErr (EAppxHeader × Nat) := do
  let (hsz, p) ← readLEx data p 2
  let (ver, p) ← readLEx data p 8
  let (foff, p) ← readLEx data p 8
  let (flen, p) ← readLEx data p 8
  let (fcnt, p) ← readLEx data p 8
  let (soff, p) ← readLEx data p 8
  let (sct, p) ← readLEx data p 2
  let (sul, p) ← readLEx data p 4
  let (slen, p) ← readLEx data p 4
  let (cioff, p) ← readLEx data p 8
  let (cict, p) ← readLEx data p 2
  let (ciul, p) ← readLEx data p 4
  let (cilen, p) ← readLEx data p 4
  let (bmfid, p) ← readLEx data p 8
  let (klen, p) ← readLEx data p 4
  let (kidCount, p) ← readLEx data p 2
  let (kids, p) ← readKeyIds data p kidCount
  let (_pfnStrLen, p) ← readLEx data p 2
  let (pfnByteLen, p) ← readLEx data p 2
  let (pfn, p) ← readU16s data p (pfnByteLen / 2)
  let (caLen, p) ← readLEx data p 2
  let (ca, p) ← readU16s data p (caLen / 2)
  let (diff, p) ← readLEx data p 2
  let (bmhaLen, p) ← readLEx data p 2
  let (bmha, p) ← readU16s data p (bmhaLen / 2)
  let (bmhLen, p) ← readLEx data p 2
  let (bmh, p) ← readNBytes data p bmhLen
  pure ({ magic := m, header_size := hsz, version := ver, footer_offset := foff,
          footer_length := flen, file_count := fcnt, signature_offset := soff,
          signature_compression_type := sct, signature_uncompressed_length := sul,
          signature_length := slen, code_integrity_offset := cioff,
          code_integrity_compression_type := cict,
          code_integrity_uncompressed_length := ciul, code_integrity_length := cilen,
          block_map_file_id := bmfid, key_length := klen, key_ids := kids,
          package_full_name := pfn, crypto_algo := ca,
          diffusion_support_enabled := diff, block_map_hash_algo := bmha,
          block_map_hash := bmh }, p)

/-- Rust `EAppxHeader::read`: the magic field first, then the rest. -/
def parseHeader (data : List Nat) : Except BinErr (EAppxHeader × Nat) :=
  match parseMagic data 0 with
  | .error e => .error e
  | .ok (m, p) => parseHeaderAfterMagic data m p

/-- The parsing phases of `EAppxFile::from_stream`: read the header (the
source unwraps, so a binrw failure is a panic), read the footer array, and
resolve the block-map footer by positional index, producing the block-map
`FileInfo` with the header's block-map hash attached.  The remaining phase —
streaming the block-map file and XML-decoding it with the external xmlserde
crate — is beyond this embedding. -/
def fromStreamParse (data : List Nat) :
    Outcome (EAppxHeader × List EAppxFooter × FileInfo) :=
  match parseHeader data with
  | .error .badMagic => .panicWith "parsing field magic"
  | .error .eof => .panicWith "unexpected end of stream"
  | .ok (hdr, _) =>
      match readFooters data hdr.footer_offset (footerCount hdr.footer_length) with
      | none => .panicWith "failed to read footer record"
      | some footers =>
          match footers.get? hdr.block_map_file_id with
          | none => .err (.dataErr "Failed to find blockmap file")
          | some ftr =>
              .ok (hdr, footers,
                   { fileInfoOfFooter ftr with filehash := some hdr.block_map_hash })

/-! ### lib.rs: layered reader and the per-file streaming loops.

The byte-stream parameter `data` of the loops below stands for the byte
sequence delivered by the layered reader built by `create_reader` (the raw
stream after optional DEFLATE decompression and optional AES-XTS
decryption); the loops themselves only ever pull consecutive bytes from
that reader. -/

/-- The adapter layers `create_reader` stacks on the raw stream. -/
inductive ReaderLayer where
  | deflate
  | aesXts
deriving DecidableEq, Repr

/-- Rust `EAppxFile::create_reader`: DEFLATE when compressed, then AES-XTS when
encrypted; encrypted without a crypto context is a panic. -/
def createReaderLayers (encrypted compressed cryptoPresent : Bool) :
    Outcome (List ReaderLayer) :=
  let layers := if compressed then [ReaderLayer.deflate] else []
  if encrypted then
    if cryptoPresent then .ok (layers ++ [ReaderLayer.aesXts])
    else .panicWith "File is encrypted but no CryptoContext was passed. Were the apprioriate keys loaded?"
  else .ok layers

/-- Rust `is_encrypted = fileinfo.key_id_index != 0xFFFF && !from_bundle`. -/
def isEncryptedFlag (fi : FileInfo) (fromBundle : Bool) : Bool :=
  fi.key_id_index != 0xFFFF && !fromBundle

/-- Rust `is_compressed = fileinfo.compression_type == 0x1`. -/
def isCompressedFlag (fi : FileInfo) : Bool :=
  fi.compression_type == 1

/-- Rust `read_amount = min(chunk_size, uncompressed_length - pos)` with
`chunk_size = utils::BLOCK_SIZE`. -/
def readAmt (len pos : Nat) : Nat := min BLOCK_SIZE (len - pos)

/-- The block-hash comparison both loops perform: when the file info carries a
hash for the current block, compare it against SHA-256 of the bytes just read
(`assert_eq!(hex::encode(Sha256::digest(..)), hex::encode(block_hash))`). -/
def blockHashOk (bhs : Option (List (List Nat))) (block : Nat) (chunk : List Nat) : Bool :=
  match bhs.bind (fun l => l.get? block) with
  | some h => sha256Bytes chunk == h
  | none => true

/-- The loop of `EAppxFile::read_file`.  State: `pos` (bytes consumed),
`block` (block index), `acc` (bytes fed to the whole-file hasher).
`checkBlocks` is the source's `!is_encrypted && do_checksum_checks` guard.
The fuel argument is a modelling artifact of the shallow embedding: the
wrapper passes `len + 1`, which the lemmas below show is never exhausted. -/
def readFileGo (checkBlocks doChecks : Bool) (bhs : Option (List (List Nat)))
    (fh : Option (List Nat)) (len : Nat) (data : List Nat) :
    Nat → Nat → Nat → List Nat → Outcome Unit
  | 0, _, _, _ => .panicWith "loop fuel exhausted"
  | fuel + 1, pos, block, acc =>
    let chunk := (data.drop pos).take (readAmt len pos)
    if chunk.length < readAmt len pos then .err (.ioErr "failed to fill whole buffer")
    else if checkBlocks && !(blockHashOk bhs block chunk) then
      .panicWith "Invalid block hash"
    else
      let acc' := if doChecks then acc ++ chunk else acc
      if len ≤ pos + readAmt len pos then
        if len ≠ pos + readAmt len pos then .err (.dataErr "Invalid filesize")
        else if doChecks then
          match fh with
          | some fhash =>
              if sha256Bytes acc' == fhash then .ok ()
              else .panicWith "Hash mismatch for file"
          | none => .ok ()
        else .ok ()
      else readFileGo checkBlocks doChecks bhs fh len data fuel
             (pos + readAmt len pos) (block + 1) acc'

/-- Rust `EAppxFile::read_file`: build the layered reader (panics when encrypted
without a crypto context), then run the block loop from position 0. -/
def readFile (fi : FileInfo) (fromBundle cryptoPresent doChecks : Bool)
    (data : List Nat) : Outcome Unit :=
  match createReaderLayers (isEncryptedFlag fi fromBundle) (isCompressedFlag fi)
      cryptoPresent with
  | .ok _ =>
      readFileGo (!(isEncryptedFlag fi fromBundle) && doChecks) doChecks
        fi.block_hashes fi.filehash fi.uncompressed_length data
        (fi.uncompressed_length + 1) 0 0 []
  | .err e => .err e
  | .panicWith m => .panicWith m

/-- The per-iteration read amount of `verify_file`: the `read_file` amount,
sector-aligned when the file is encrypted. -/
def verifyAmt (isEnc : Bool) (len pos : Nat) : Nat :=
  if isEnc then alignToSector (readAmt len pos) else readAmt len pos

/-- The loop of `EAppxFile::verify_file`: like `read_file`'s loop but with the
sector-aligned read amount for encrypted files, block hashes always checked,
and no writing or whole-file hashing.  Fuel as in `readFileGo`. -/
def verifyFileGo (bhs : Option (List (List Nat))) (isEnc : Bool) (len : Nat)
    (data : List Nat) : Nat → Nat → Nat → Outcome Unit
  | 0, _, _ => .panicWith "loop fuel exhausted"
  | fuel + 1, pos, block =>
    let chunk := (data.drop pos).take (verifyAmt isEnc len pos)
    if chunk.length < verifyAmt isEnc len pos then
      .err (.ioErr "failed to fill whole buffer")
    else if blockHashOk bhs block chunk = false then .panicWith "Invalid block hash"
    else if len ≤ pos + verifyAmt isEnc len pos then .ok ()
    else verifyFileGo bhs isEnc len data fuel (pos + verifyAmt isEnc len pos) (block + 1)

/-- Rust `EAppxFile::verify_file`: the reader is built with `encrypted = false` and
no crypto context (so nothing is ever decrypted and no key is consulted),
then the loop runs from position 0. -/
def verifyFile (fi : FileInfo) (fromBundle : Bool) (data : List Nat) : Outcome Unit :=
  match createReaderLayers false (isCompressedFlag fi) false with
  | .ok _ =>
      verifyFileGo fi.block_hashes (isEncryptedFlag fi fromBundle)
        fi.uncompressed_length data (fi.uncompressed_length + 1) 0 0
  | .err e => .err e
  | .panicWith m => .panicWith m

/-! ### lib.rs: extraction over the block-map and the bundle manifest -/

/-- Rust `EAppxFile::find_footer_for_file`: linear search by the `file_id` field. -/
def findFooterForFile (footers : List EAppxFooter) (fid : Nat) : Option EAppxFooter :=
  footers.find? (fun f => f.file_id == fid)

/-- Rust `EAppxFile::get_cipher_for_key_index`, reduced to cipher availability:
index 0xFFFF never has a cipher; otherwise `cipherFor` stands for "the header
names a key-id at this index and the loaded key table has material for it". -/
def cryptoForIndex (cipherFor : Nat → Bool) (keyIndex : Nat) : Bool :=
  if keyIndex == 0xFFFF then false else cipherFor keyIndex

/-- One block-map `File` entry, with the decoded values the extraction engine
consumes: `fid` is `File::id()` (the hex `Id` attribute parsed as u64),
`blocks` is `File::block_hashes()` and `filehash` is `File::filehash_bytes()`
(base64 decoding done by the external crate). -/
structure BMFile where
  name : String
  fid : Nat
  size : Nat
  blocks : List (List Nat)
  filehash : Option (List Nat)
deriving DecidableEq, Repr

/-- Rust `EAppxFile::extract_blockmap_files`: for each block-map file, resolve the
footer by `file_id` (a returned DataError when missing), attach the hashes,
`assert_eq!` the block-map size against the footer's uncompressed length
(a panic on mismatch), then save the file through `read_file`.  `dataFor`
gives each file's layered-reader byte sequence. -/
def extractBlockmapFiles (isBundle : Bool) (footers : List EAppxFooter)
    (cipherFor : Nat → Bool) (doChecks : Bool) (dataFor : Nat → List Nat) :
    List BMFile → Outcome Unit
  | [] => .ok ()
  | file :: rest =>
      match findFooterForFile footers file.fid with
      | none => .err (.dataErr "Failed to find footer for file")
      | some ftr =>
          let fi := { fileInfoOfFooter ftr with
                        filehash := file.filehash, block_hashes := some file.blocks }
          if file.size ≠ ftr.uncompressed_length then
            .panicWith "BlockMap vs. Footer file offset mismatch"
          else
            match readFile fi isBundle (cryptoForIndex cipherFor ftr.key_id_index)
                doChecks (dataFor file.fid) with
            | .ok _ => extractBlockmapFiles isBundle footers cipherFor doChecks dataFor rest
            | .err e => .err e
            | .panicWith m => .panicWith m

/-- A bundle-manifest `Package`, with the fields `extract_bundle_files`
consumes. -/
structure BundlePackage where
  filename : String
  offset : Nat
deriving DecidableEq, Repr

/-- The package loop of `EAppxFile::extract_bundle_files`: packages are
enumerated, the footer is resolved by `find_footer_for_file` applied to the
enumeration index `i` (a returned DataError when missing), the manifest
offset is `assert_eq!`-checked against the footer's (a panic on mismatch),
and the package is saved through `read_file`. -/
def extractBundleGo (isBundle : Bool) (footers : List EAppxFooter)
    (cipherFor : Nat → Bool) (doChecks : Bool) (dataFor : Nat → List Nat) :
    List BundlePackage → Nat → Outcome Unit
  | [], _ => .ok ()
  | pkg :: rest, i =>
      match findFooterForFile footers i with
      | none => .err (.dataErr "File not found in footers")
      | some fm =>
          if pkg.offset ≠ fm.offset_to_file then
            .panicWith "Bundle Manifest vs. Footer file offset mismatch"
          else
            match readFile (fileInfoOfFooter fm) isBundle
                (cryptoForIndex cipherFor fm.key_id_index) doChecks (dataFor i) with
            | .ok _ => extractBundleGo isBundle footers cipherFor doChecks dataFor rest (i + 1)
            | .err e => .err e
            | .panicWith m => .panicWith m

/-- Rust `EAppxFile::extract_bundle_files` (after the manifest has been decoded):
run the package loop from ordinal 0.  `isBundle` is `self.header.is_bundle()`,
which is what `save_file_to_fs` passes to `read_file` as `from_bundle`. -/
def extractBundleFiles (isBundle : Bool) (pkgs : List BundlePackage)
    (footers : List EAppxFooter) (cipherFor : Nat → Bool) (doChecks : Bool)
    (dataFor : Nat → List Nat) : Outcome Unit :=
  extractBundleGo isBundle footers cipherFor doChecks dataFor pkgs 0

end EAppx

/-! ## Theorems -/

namespace EAppx

set_option maxRecDepth 10000

/-- Claim C4 (confirmed): for the logical path
`\Assets\LockScreenLogo.scale-200.png` and package full name
`testapp_bst25f6z33ccc`, the tweak-derivation SHA-256 over the UTF-16LE path
concatenated with the UTF-16LE lowercased pfn equals
`98254280ac79f4b4799b1cd78bffb41ffeaa59f1ee70268b7f0c38dddc8ab195`, and
folding that hash yields the base tweak `0xB5D77C157B3F1860`. -/
theorem tweak_for_lockscreen_logo :
    hashForFileTweak "\\Assets\\LockScreenLogo.scale-200.png" "testapp_bst25f6z33ccc" =
      [0x98, 0x25, 0x42, 0x80, 0xac, 0x79, 0xf4, 0xb4, 0x79, 0x9b, 0x1c, 0xd7,
       0x8b, 0xff, 0xb4, 0x1f, 0xfe, 0xaa, 0x59, 0xf1, 0xee, 0x70, 0x26, 0x8b,
       0x7f, 0x0c, 0x38, 0xdd, 0xdc, 0x8a, 0xb1, 0x95] ∧
    getTweakValue "\\Assets\\LockScreenLogo.scale-200.png" "testapp_bst25f6z33ccc" =
      0xB5D77C157B3F1860 := by
  constructor <;> decide

/-- Claim C8, counterexample: on an all-zero 4 KiB buffer, `from_stream` does
not return a DecodeError — it panics while parsing the magic field (the
source unwraps the binrw result, and the repository's own
`parse_invalid_header` test expects that panic). -/
theorem from_stream_zero_buffer_cx :
    fromStreamParse (List.replicate 4096 0) = .panicWith "parsing field magic" ∧
    (fromStreamParse (List.replicate 4096 0)).isDecodeErr = false := by
  have hle : readLE (List.replicate 4096 0) 0 4 = some 0 := by
    rw [readLE, List.length_replicate]
    norm_num [List.take_replicate]
    decide
  have h : fromStreamParse (List.replicate 4096 0) = .panicWith "parsing field magic" := by
    unfold fromStreamParse parseHeader parseMagic
    rw [hle]
    norm_num
  exact ⟨h, by rw [h]; rfl⟩

/-- Claim C8 (corrected): parsing a container whose magic field is not one of
the three known constants makes `EAppxFile::from_stream` panic on the magic
field (via unwrap of the binrw error), rather than return a DecodeError. -/
theorem from_stream_bad_magic_panics (data : List Nat) (v : Nat)
    (hv : readLE data 0 4 = some v)
    (h1 : v ≠ 0x48505845) (h2 : v ≠ 0x48535845) (h3 : v ≠ 0x48425845) :
    fromStreamParse data = .panicWith "parsing field magic" := by
  unfold fromStreamParse parseHeader parseMagic
  rw [hv]
  simp [h1, h2, h3]

/-- Claim C8, witness: the hypotheses of `from_stream_bad_magic_panics` hold
for the all-zero 4 KiB buffer. -/
theorem from_stream_bad_magic_panics_wit :
    fromStreamParse (List.replicate 4096 0) = .panicWith "parsing field magic" :=
  from_stream_bad_magic_panics (List.replicate 4096 0) 0
    (by rw [readLE, List.length_replicate]; norm_num [List.take_replicate]; decide)
    (by decide) (by decide) (by decide)

/-- Claim C9, counterexample: when the key-file text does not start with
`[Keys]`, `KeyCollection::from_str` panics instead of returning a
DecodeError; moreover the check is a starts-with test on the trimmed text,
not a comparison of the first line, so `[Keys]x` is accepted. -/
theorem keyfile_magic_decodeerr_cx :
    keyCollectionFromStr (fun _ => none) ("foo".data) =
      .panicWith "Invalid keyfile magic, expected [Keys]" ∧
    (keyCollectionFromStr (fun _ => none) ("foo".data)).isDecodeErr = false ∧
    keyCollectionFromStr (fun _ => none) ("[Keys]x".data) = .ok [] := by
  refine ⟨?_, ?_, ?_⟩ <;> decide

/-- Claim C9 (corrected): for every input string whose trimmed text does not
start with `[Keys]`, key-file text parsing panics with
"Invalid keyfile magic, expected [Keys]" (it does not return a DecodeError). -/
theorem keyfile_magic_panics (b64 : List Char → Option (List Nat)) (s : List Char)
    (h : startsWithChars ("[Keys]".data) (trimChars s) = false) :
    keyCollectionFromStr b64 s = .panicWith "Invalid keyfile magic, expected [Keys]" := by
  unfold keyCollectionFromStr
  simp [h]

/-- Claim C9, witness: the hypothesis of `keyfile_magic_panics` holds for the
input "foo". -/
theorem keyfile_magic_panics_wit :
    keyCollectionFromStr (fun _ => none) ("foo".data) =
      .panicWith "Invalid keyfile magic, expected [Keys]" :=
  keyfile_magic_panics (fun _ => none) ("foo".data) (by decide)

/-- Claim C6, counterexample: for a key-id of 16 zero bytes the parsed KeyId
is `Guid(SHORT_KEY_GUID_PREFIX, decoded)` — the fixed GUID sits in the first
(low, in the spec's `(lowGuid, highGuid)` convention) component, not in the
second — so the claim's assignment of halves is false. -/
theorem short_keyid_low_half_cx :
    parseKeyIdFromBytes (List.replicate 16 0) =
      .ok (.guid shortKeyGuid (uuidFromBytesLE (List.replicate 16 0))) ∧
    Outcome.ok (shortKeyIdPerSpec (List.replicate 16 0)) ≠
      parseKeyIdFromBytes (List.replicate 16 0) := by
  constructor <;> decide

/-- Claim C6 (corrected): for every key-id that base64-decodes to exactly 16
bytes, the parsed KeyId is the GUID pair whose FIRST (low) component is the
fixed short-key GUID `BB1755DB-5052-4B10-B2AB-F3ABF5CA5B41` and whose SECOND
(high) component is the short GUID decoded little-endian from those 16 bytes. -/
theorem short_keyid_widened_first_component (bs : List Nat) (h : bs.length = 16) :
    parseKeyIdFromBytes bs = .ok (.guid shortKeyGuid (uuidFromBytesLE bs)) := by
  unfold parseKeyIdFromBytes
  simp [h]

/-- Claim C6, witness: the hypothesis of `short_keyid_widened_first_component`
holds for 16 zero bytes. -/
theorem short_keyid_widened_first_component_wit :
    parseKeyIdFromBytes (List.replicate 16 0) =
      .ok (.guid shortKeyGuid (uuidFromBytesLE (List.replicate 16 0))) :=
  short_keyid_widened_first_component (List.replicate 16 0) (by decide)

/-- A successful `parseFooter` always advances the stream position by exactly
40 bytes (the on-disk footer record width). -/
theorem parseFooter_snd (data : List Nat) (pos : Nat) (f : EAppxFooter) (q : Nat)
    (h : parseFooter data pos = some (f, q)) : q = pos + 40 := by
  simp only [parseFooter, Option.bind_eq_some, Option.pure_def, Option.some.injEq,
    bind, Prod.mk.injEq] at h
  obtain ⟨_, _, _, _, _, _, _, _, _, _, _, _, _, _, _, _, _, hq⟩ := h
  omega

/-- Claim C3, counterexample: on 80 bytes of 0xAA, `footer_count` is
80 / 40 = 2 (the claim's 48-byte record would give 1), the first record ends
at offset 40, and both records parse successfully although their magic field
is 0xAAAA ≠ 0x4546 — no magic validation happens. -/
theorem footer_no_magic_validation_cx :
    footerCount 80 = 2 ∧ 80 / 48 = 1 ∧
    (parseFooter (List.replicate 80 170) 0).map (fun p => p.2) = some 40 ∧
    (readFooters (List.replicate 80 170) 0 (footerCount 80)).map
        (fun l => l.map (fun f => f.magic)) = some [43690, 43690] ∧
    (43690 : Nat) ≠ 0x4546 := by
  refine ⟨rfl, rfl, ?_, ?_, by decide⟩ <;> decide

/-- Claim C3 (corrected): footer parsing seeks to `footer_offset` and reads
exactly `footer_length / 40` consecutive `FileFooter` records, each record
occupying 40 bytes on disk (`size_of::<EAppxFooter>()` is 40, not 48); the
magic field of the parsed footers is not validated. -/
theorem read_footers_forty_byte_records (data : List Nat) :
    (∀ n, footerCount n = n / 40) ∧
    ∀ count off fs, readFooters data off count = some fs →
      fs.length = count ∧
      ∀ i, i < count →
        parseFooter data (off + 40 * i) =
          (fs.get? i).map (fun f => (f, off + 40 * i + 40)) := by
  refine ⟨fun _ => rfl, ?_⟩
  intro count
  induction count with
  | zero =>
      intro off fs h
      simp [readFooters] at h
      subst h
      simp
  | succ n ih =>
      intro off fs h
      rw [readFooters] at h
      cases hp : parseFooter data off with
      | none => rw [hp] at h; cases h
      | some p =>
          obtain ⟨f0, q0⟩ := p
          have hsnd : q0 = off + 40 := parseFooter_snd data off f0 q0 hp
          subst hsnd
          rw [hp] at h
          dsimp only at h
          cases hr : readFooters data (off + 40) n with
          | none => rw [hr] at h; simp at h
          | some rest =>
              rw [hr] at h
              simp only [Option.map_some', Option.some.injEq] at h
              subst h
              obtain ⟨hlen, hrec⟩ := ih (off + 40) rest hr
              constructor
              · simp [hlen]
              · intro i hi
                cases i with
                | zero => simpa using hp
                | succ j =>
                    have hj := hrec j (by omega)
                    simp only [List.get?_cons_succ]
                    rw [show off + 40 * (j + 1) = off + 40 + 40 * j by ring]
                    exact hj

/-- Claim C3, witness: the record hypothesis of
`read_footers_forty_byte_records` holds on the 80-byte 0xAA stream, whose
footer array has exactly `footerCount 80 = 2` entries. -/
theorem read_footers_forty_byte_records_wit :
    ([⟨43690, 43690, 43690, 43690, 12297829382473034410, 12297829382473034410,
       12297829382473034410, 12297829382473034410⟩,
      ⟨43690, 43690, 43690, 43690, 12297829382473034410, 12297829382473034410,
       12297829382473034410, 12297829382473034410⟩] : List EAppxFooter).length =
      footerCount 80 :=
  ((read_footers_forty_byte_records (List.replicate 80 170)).2 (footerCount 80) 0
    _ (by decide)).1

/-- Claim C7, counterexample: when a block-map file's declared size differs
from the resolved footer's uncompressed length, `extract_blockmap_files` does
not return a DataError — the `assert_eq!` panics. -/
theorem blockmap_size_mismatch_dataerr_cx :
    extractBlockmapFiles false [⟨0x4546, 40, 0xFFFF, 0, 0, 0, 0, 0⟩]
        (fun _ => false) false (fun _ => []) [⟨"f.bin", 0, 5, [], none⟩] =
      .panicWith "BlockMap vs. Footer file offset mismatch" ∧
    (extractBlockmapFiles false [⟨0x4546, 40, 0xFFFF, 0, 0, 0, 0, 0⟩]
        (fun _ => false) false (fun _ => []) [⟨"f.bin", 0, 5, [], none⟩]).isDataErr =
      false := by
  constructor <;> decide

/-- Claim C7 (corrected): during extraction of block-map files, for every
entry whose declared Size differs from the resolved footer's
uncompressed_length the operation panics via `assert_eq!` (an assertion
failure, not a returned DataError); for every file present in both structures
the two values must be equal for the run to succeed. -/
theorem blockmap_size_mismatch_panics (isBundle : Bool) (footers : List EAppxFooter)
    (cipherFor : Nat → Bool) (doChecks : Bool) (dataFor : Nat → List Nat)
    (files : List BMFile) :
    (extractBlockmapFiles isBundle footers cipherFor doChecks dataFor files = .ok () →
      ∀ file ∈ files, ∀ ftr, findFooterForFile footers file.fid = some ftr →
        file.size = ftr.uncompressed_length) ∧
    (∀ file rest ftr, files = file :: rest →
      findFooterForFile footers file.fid = some ftr →
      file.size ≠ ftr.uncompressed_length →
      extractBlockmapFiles isBundle footers cipherFor doChecks dataFor files =
        .panicWith "BlockMap vs. Footer file offset mismatch") := by
  constructor
  · induction files with
    | nil => intro _ file hmem; cases hmem
    | cons f0 rest ih =>
        intro h file hmem ftr hfind
        rw [extractBlockmapFiles] at h
        cases hf : findFooterForFile footers f0.fid with
        | none => rw [hf] at h; cases h
        | some ftr0 =>
            rw [hf] at h
            dsimp only at h
            by_cases hsz : f0.size = ftr0.uncompressed_length
            · rw [if_neg (by omega)] at h
              cases hrd : readFile
                  { fileInfoOfFooter ftr0 with
                      filehash := f0.filehash, block_hashes := some f0.blocks }
                  isBundle (cryptoForIndex cipherFor ftr0.key_id_index) doChecks
                  (dataFor f0.fid) with
              | ok u => rw [hrd] at h
                        cases hmem with
                        | head =>
                            rw [hf] at hfind
                            cases hfind
                            exact hsz
                        | tail _ hmem2 => exact ih h file hmem2 ftr hfind
              | err e => rw [hrd] at h; cases h
              | panicWith m => rw [hrd] at h; cases h
            · rw [if_pos hsz] at h; cases h
  · intro file rest ftr hfiles hfind hne
    subst hfiles
    rw [extractBlockmapFiles, hfind]
    dsimp only
    rw [if_pos hne]

/-- Claim C7, witness: the hypotheses of the success direction of
`blockmap_size_mismatch_panics` hold on a one-file block-map whose size agrees
with its footer. -/
theorem blockmap_size_mismatch_panics_wit :
    (⟨"f.bin", 0, 0, [], none⟩ : BMFile).size =
      (⟨0x4546, 40, 0xFFFF, 0, 0, 0, 0, 0⟩ : EAppxFooter).uncompressed_length :=
  (blockmap_size_mismatch_panics false [⟨0x4546, 40, 0xFFFF, 0, 0, 0, 0, 0⟩]
      (fun _ => false) false (fun _ => []) [⟨"f.bin", 0, 0, [], none⟩]).1
    (by decide) ⟨"f.bin", 0, 0, [], none⟩ (by decide)
    ⟨0x4546, 40, 0xFFFF, 0, 0, 0, 0, 0⟩ (by decide)

/-- The package loop of `extract_bundle_files`: a successful run means every
package at ordinal `j` was matched against the footer found by `file_id`
equal to `i0 + j`, with agreeing offsets and a successful save. -/
theorem extractBundleGo_ok (isBundle : Bool) (footers : List EAppxFooter)
    (cipherFor : Nat → Bool) (doChecks : Bool) (dataFor : Nat → List Nat) :
    ∀ pkgs i0,
      extractBundleGo isBundle footers cipherFor doChecks dataFor pkgs i0 = .ok () →
      ∀ j pkg, pkgs.get? j = some pkg →
        ∃ fm, findFooterForFile footers (i0 + j) = some fm ∧
          pkg.offset = fm.offset_to_file ∧
          readFile (fileInfoOfFooter fm) isBundle
            (cryptoForIndex cipherFor fm.key_id_index) doChecks (dataFor (i0 + j)) =
            .ok () := by
  intro pkgs
  induction pkgs with
  | nil => intro i0 _ j pkg hj; cases hj
  | cons p0 rest ih =>
      intro i0 h j pkg hj
      rw [extractBundleGo] at h
      cases hf : findFooterForFile footers i0 with
      | none => rw [hf] at h; cases h
      | some fm0 =>
          rw [hf] at h
          dsimp only at h
          by_cases hoff : p0.offset = fm0.offset_to_file
          · rw [if_neg (by simp [hoff])] at h
            cases hrd : readFile (fileInfoOfFooter fm0) isBundle
                (cryptoForIndex cipherFor fm0.key_id_index) doChecks (dataFor i0) with
            | ok u =>
                rw [hrd] at h
                cases j with
                | zero =>
                    cases hj
                    exact ⟨fm0, by simpa using hf, hoff, by simpa using hrd⟩
                | succ j' =>
                    have := ih (i0 + 1) h j' pkg (by simpa using hj)
                    simpa [Nat.add_assoc, Nat.add_comm 1 j'] using this
            | err e => rw [hrd] at h; cases h
            | panicWith m => rw [hrd] at h; cases h
          · rw [if_pos hoff] at h; cases h

/-- Claim C2, counterexample: a bundle whose footer at positional index 0 has
`file_id = 5` and offset 1000, while the footer with `file_id = 0` sits at
positional index 1 with offset 2000.  The manifest package at ordinal 0
declares offset 2000: resolution by positional index (as the claim states)
would fail the offset assertion against 1000, but the code resolves by
`file_id` and succeeds. -/
theorem extract_bundle_positional_cx :
    extractBundleFiles true [⟨"a.msix", 2000⟩]
        [⟨0x4546, 40, 0xFFFF, 0, 5, 1000, 0, 0⟩, ⟨0x4546, 40, 0xFFFF, 0, 0, 2000, 0, 0⟩]
        (fun _ => false) false (fun _ => []) = .ok () ∧
    ([(⟨0x4546, 40, 0xFFFF, 0, 5, 1000, 0, 0⟩ : EAppxFooter),
      ⟨0x4546, 40, 0xFFFF, 0, 0, 2000, 0, 0⟩].get? 0) =
      some ⟨0x4546, 40, 0xFFFF, 0, 5, 1000, 0, 0⟩ ∧
    (⟨"a.msix", 2000⟩ : BundlePackage).offset ≠
      (⟨0x4546, 40, 0xFFFF, 0, 5, 1000, 0, 0⟩ : EAppxFooter).offset_to_file := by
  refine ⟨?_, rfl, by decide⟩
  decide

/-- Claim C2 (corrected): for a bundle container, for every package at
ordinal i, `extract_bundle_files` resolves the footer whose `file_id` equals
i (via `find_footer_for_file`, not by positional index), asserts that
`Package.Offset` equals that footer's `offset_to_file`, and extracts the
package with encryption disabled (`from_bundle = true`, so the per-file
reader never decrypts). -/
theorem extract_bundle_resolves_by_file_id (pkgs : List BundlePackage)
    (footers : List EAppxFooter) (cipherFor : Nat → Bool) (doChecks : Bool)
    (dataFor : Nat → List Nat) :
    (∀ fi : FileInfo, isEncryptedFlag fi true = false) ∧
    (extractBundleFiles true pkgs footers cipherFor doChecks dataFor = .ok () →
      ∀ i pkg, pkgs.get? i = some pkg →
        ∃ fm, findFooterForFile footers i = some fm ∧
          pkg.offset = fm.offset_to_file ∧
          readFile (fileInfoOfFooter fm) true
            (cryptoForIndex cipherFor fm.key_id_index) doChecks (dataFor i) =
            .ok ()) := by
  constructor
  · intro fi; simp [isEncryptedFlag]
  · intro h i pkg hget
    have := extractBundleGo_ok true footers cipherFor doChecks dataFor pkgs 0 h i pkg hget
    simpa using this

/-- Claim C2, witness: the hypotheses of the success direction of
`extract_bundle_resolves_by_file_id` hold on the two-footer bundle of the
counterexample. -/
theorem extract_bundle_resolves_by_file_id_wit :
    ∃ fm, findFooterForFile
        [⟨0x4546, 40, 0xFFFF, 0, 5, 1000, 0, 0⟩, ⟨0x4546, 40, 0xFFFF, 0, 0, 2000, 0, 0⟩]
        0 = some fm ∧
      (⟨"a.msix", 2000⟩ : BundlePackage).offset = fm.offset_to_file ∧
      readFile (fileInfoOfFooter fm) true
        (cryptoForIndex (fun _ => false) fm.key_id_index) false
        ((fun _ => ([] : List Nat)) 0) = .ok () :=
  (extract_bundle_resolves_by_file_id [⟨"a.msix", 2000⟩]
      [⟨0x4546, 40, 0xFFFF, 0, 5, 1000, 0, 0⟩, ⟨0x4546, 40, 0xFFFF, 0, 0, 2000, 0, 0⟩]
      (fun _ => false) false (fun _ => [])).2 (by decide) 0 ⟨"a.msix", 2000⟩ rfl

theorem alignToSector_ge (n : Nat) : n ≤ alignToSector n := by
  simp only [alignToSector, SECTOR_SIZE]
  omega

theorem alignToSector_block : alignToSector BLOCK_SIZE = BLOCK_SIZE := by decide

theorem verifyAmt_true (len pos : Nat) :
    verifyAmt true len pos = alignToSector (readAmt len pos) := rfl

/-- The `verify_file` loop on an encrypted file, characterized: starting at
block boundary `block * BLOCK_SIZE` (with enough fuel), it returns ok exactly
when, for every remaining block index, the sector-aligned slice of the raw
stream at that block is available and matches any present block hash. -/
theorem verifyFileGo_enc_iff (bhs : Option (List (List Nat))) (len : Nat)
    (data : List Nat) :
    ∀ fuel block, block * BLOCK_SIZE < len → len - block * BLOCK_SIZE < fuel →
      (verifyFileGo bhs true len data fuel (block * BLOCK_SIZE) block = .ok () ↔
        ∀ i, block ≤ i → i < (len + BLOCK_SIZE - 1) / BLOCK_SIZE →
          i * BLOCK_SIZE + alignToSector (readAmt len (i * BLOCK_SIZE)) ≤ data.length ∧
          blockHashOk bhs i ((data.drop (i * BLOCK_SIZE)).take
            (alignToSector (readAmt len (i * BLOCK_SIZE)))) = true) := by
  intro fuel
  induction fuel with
  | zero => intro block _ hfuel; exact absurd hfuel (Nat.not_lt_zero _)
  | succ n ih =>
      intro block hlt hfuel
      have hApos : 0 < alignToSector (readAmt len (block * BLOCK_SIZE)) := by
        simp only [alignToSector, SECTOR_SIZE]
        omega
      have hblocklt : block < (len + BLOCK_SIZE - 1) / BLOCK_SIZE := by
        simp only [BLOCK_SIZE] at hlt ⊢
        omega
      rw [verifyFileGo]
      rw [verifyAmt_true]
      by_cases h1 : ((data.drop (block * BLOCK_SIZE)).take
          (alignToSector (readAmt len (block * BLOCK_SIZE)))).length <
          alignToSector (readAmt len (block * BLOCK_SIZE))
      · rw [if_pos h1]
        apply iff_of_false (by simp)
        intro hall
        have hc := (hall block le_rfl hblocklt).1
        simp only [List.length_take, List.length_drop] at h1
        omega
      · rw [if_neg h1]
        have hlenb : block * BLOCK_SIZE + alignToSector (readAmt len (block * BLOCK_SIZE)) ≤
            data.length := by
          simp only [List.length_take, List.length_drop] at h1
          omega
        cases hbh : blockHashOk bhs block ((data.drop (block * BLOCK_SIZE)).take
            (alignToSector (readAmt len (block * BLOCK_SIZE)))) with
        | false =>
            rw [if_pos rfl]
            apply iff_of_false (by simp)
            intro hall
            have hc := (hall block le_rfl hblocklt).2
            rw [hbh] at hc
            cases hc
        | true =>
            rw [if_neg (by simp)]
            by_cases hexit : len ≤ block * BLOCK_SIZE +
                alignToSector (readAmt len (block * BLOCK_SIZE))
            · rw [if_pos hexit]
              apply iff_of_true rfl
              intro i hbi hiB
              have hr : len - block * BLOCK_SIZE ≤ BLOCK_SIZE := by
                by_contra hgt
                push_neg at hgt
                have hra : readAmt len (block * BLOCK_SIZE) = BLOCK_SIZE := by
                  simp only [readAmt]
                  omega
                rw [hra, alignToSector_block] at hexit
                omega
              have hieq : i = block := by
                simp only [BLOCK_SIZE] at hr hiB hlt
                omega
              subst hieq
              exact ⟨hlenb, hbh⟩
            · rw [if_neg hexit]
              have hgt : BLOCK_SIZE < len - block * BLOCK_SIZE := by
                by_contra hle2
                push_neg at hle2
                have h5 : readAmt len (block * BLOCK_SIZE) = len - block * BLOCK_SIZE := by
                  simp only [readAmt]
                  omega
                have hge1 : len - block * BLOCK_SIZE ≤
                    alignToSector (readAmt len (block * BLOCK_SIZE)) :=
                  le_of_eq_of_le h5.symm (alignToSector_ge _)
                exact hexit (by omega)
              have hra : readAmt len (block * BLOCK_SIZE) = BLOCK_SIZE := by
                simp only [readAmt]
                omega
              rw [hra, alignToSector_block,
                show block * BLOCK_SIZE + BLOCK_SIZE = (block + 1) * BLOCK_SIZE by ring]
              have hx : (block + 1) * BLOCK_SIZE = block * BLOCK_SIZE + BLOCK_SIZE := by
                ring
              have hB : 0 < BLOCK_SIZE := by decide
              have hlt' : (block + 1) * BLOCK_SIZE < len := by
                rw [hx]
                omega
              have hfuel' : len - (block + 1) * BLOCK_SIZE < n := by
                rw [hx]
                omega
              rw [ih (block + 1) hlt' hfuel']
              constructor
              · intro hall i hbi hiB
                rcases Nat.eq_or_lt_of_le hbi with heq | hgt
                · subst heq
                  exact ⟨hlenb, hbh⟩
                · exact hall i hgt hiB
              · intro hall i hbi hiB
                exact hall i (by omega) hiB

/-- Claim C5 (confirmed): in verify-only mode, for a file with
`key_id_index ≠ 0xFFFF` and not from a bundle (and a non-empty payload), the
reader is built with decryption off and no crypto context (only DEFLATE when
`compression_type == 1`), and verification succeeds exactly when each block's
`align_to_sector(min(65536, remaining))` raw bytes are available and any
present block hash equals SHA-256 over exactly those aligned bytes — so
verification requires no decryption key. -/
theorem verify_file_encrypted_aligned_spec (fi : FileInfo) (fromBundle : Bool)
    (data : List Nat) (hEnc : isEncryptedFlag fi fromBundle = true)
    (hLen : 0 < fi.uncompressed_length) :
    createReaderLayers false (isCompressedFlag fi) false =
      .ok (if isCompressedFlag fi then [ReaderLayer.deflate] else []) ∧
    (verifyFile fi fromBundle data = .ok () ↔
      ∀ i, i < (fi.uncompressed_length + BLOCK_SIZE - 1) / BLOCK_SIZE →
        i * BLOCK_SIZE + alignToSector (readAmt fi.uncompressed_length (i * BLOCK_SIZE)) ≤
          data.length ∧
        blockHashOk fi.block_hashes i ((data.drop (i * BLOCK_SIZE)).take
          (alignToSector (readAmt fi.uncompressed_length (i * BLOCK_SIZE)))) = true) := by
  constructor
  · rfl
  · have hvf : verifyFile fi fromBundle data =
        verifyFileGo fi.block_hashes (isEncryptedFlag fi fromBundle)
          fi.uncompressed_length data (fi.uncompressed_length + 1) 0 0 := rfl
    rw [hvf, hEnc]
    have hiff := verifyFileGo_enc_iff fi.block_hashes fi.uncompressed_length data
      (fi.uncompressed_length + 1) 0 (by simpa using hLen) (by omega)
    simpa using hiff

/-- Claim C5, witness: the hypotheses of `verify_file_encrypted_aligned_spec`
hold for an encrypted 512-byte file, and its specification side is satisfied
by a 512-byte raw stream, so verification succeeds with no key. -/
theorem verify_file_encrypted_aligned_spec_wit :
    verifyFile ⟨0, 0, 0, 512, 512, none, none⟩ false (List.replicate 512 7) = .ok () :=
  ((verify_file_encrypted_aligned_spec ⟨0, 0, 0, 512, 512, none, none⟩ false
      (List.replicate 512 7) (by decide) (by decide)).2).mpr (by decide)

/-- Rust `create_reader` never returns an `Error`: it yields a reader or panics. -/
theorem createReaderLayers_ne_err (e c p : Bool) (x : Err) :
    createReaderLayers e c p ≠ .err x := by
  cases e <;> cases p <;> simp [createReaderLayers]

/-- As long as `pos ≤ len`, one more read cannot push `pos` past `len`. -/
theorem readAmt_add_le (len pos : Nat) (h : pos ≤ len) :
    pos + readAmt len pos ≤ len := by
  simp only [readAmt, BLOCK_SIZE]
  omega

/-- The `read_file` loop keeps `pos ≤ uncompressed_length` invariant, so the
loop can only exit with `pos = uncompressed_length` and the post-loop
"Invalid filesize" branch is never taken. -/
theorem readFileGo_no_sizeErr (cb dc : Bool) (bhs : Option (List (List Nat)))
    (fh : Option (List Nat)) (len : Nat) (data : List Nat) :
    ∀ fuel pos block acc, pos ≤ len →
      readFileGo cb dc bhs fh len data fuel pos block acc ≠
        .err (.dataErr "Invalid filesize") := by
  intro fuel
  induction fuel with
  | zero => intro pos block acc _; simp [readFileGo]
  | succ n ih =>
      intro pos block acc hle
      simp only [readFileGo]
      repeat' split
      all_goals
        first
        | (simp; done)
        | exact ih _ _ _ (by omega)
        | (have hra := readAmt_add_le len pos hle; omega)

/-- When the block-check guard is off (`!is_encrypted && do_checksum_checks`
is false), the `read_file` loop never consults the block-hash list. -/
theorem readFileGo_bhs_irrelevant (dc : Bool) (bhs bhs' : Option (List (List Nat)))
    (fh : Option (List Nat)) (len : Nat) (data : List Nat) :
    ∀ fuel pos block acc,
      readFileGo false dc bhs fh len data fuel pos block acc =
        readFileGo false dc bhs' fh len data fuel pos block acc := by
  intro fuel
  induction fuel with
  | zero => intro pos block acc; rfl
  | succ n ih =>
      intro pos block acc
      simp only [readFileGo]
      simp [ih]

/-- When the block-check guard is on, a successful `read_file` loop run from
block boundary `block * BLOCK_SIZE` has verified the block hash of every
visited block against SHA-256 of exactly the bytes read for that block. -/
theorem readFileGo_ok_blockhashes (dc : Bool) (bhs : Option (List (List Nat)))
    (fh : Option (List Nat)) (len : Nat) (data : List Nat) :
    ∀ fuel block acc,
      readFileGo true dc bhs fh len data fuel (block * BLOCK_SIZE) block acc = .ok () →
      ∀ i, block ≤ i → (i = block ∨ i * BLOCK_SIZE < len) →
        blockHashOk bhs i
          ((data.drop (i * BLOCK_SIZE)).take (readAmt len (i * BLOCK_SIZE))) = true := by
  intro fuel
  induction fuel with
  | zero => intro block acc h; simp [readFileGo] at h
  | succ n ih =>
      intro block acc h i hbi hcond
      rw [readFileGo] at h
      dsimp only [Bool.true_and] at h
      by_cases h1 : ((data.drop (block * BLOCK_SIZE)).take
          (readAmt len (block * BLOCK_SIZE))).length < readAmt len (block * BLOCK_SIZE)
      · rw [if_pos h1] at h; exact absurd h (by simp)
      · rw [if_neg h1] at h
        cases hbh : blockHashOk bhs block
            ((data.drop (block * BLOCK_SIZE)).take (readAmt len (block * BLOCK_SIZE))) with
        | false => rw [hbh] at h; exact absurd h (by simp)
        | true =>
          rw [hbh] at h
          simp only [Bool.not_true, Bool.and_false, Bool.false_eq_true, if_false] at h
          by_cases hexit : len ≤ block * BLOCK_SIZE + readAmt len (block * BLOCK_SIZE)
          · rcases hcond with hceq | hclt
            · subst hceq; exact hbh
            · rcases Nat.eq_or_lt_of_le hbi with heq | hlt
              · subst heq; exact hbh
              · exfalso
                simp only [readAmt, BLOCK_SIZE] at hexit hclt
                omega
          · rw [if_neg hexit] at h
            have hamt : readAmt len (block * BLOCK_SIZE) = BLOCK_SIZE := by
              simp only [readAmt, BLOCK_SIZE] at *
              omega
            rw [hamt, show block * BLOCK_SIZE + BLOCK_SIZE = (block + 1) * BLOCK_SIZE
              by ring] at h
            rcases hcond with hceq | hclt
            · subst hceq; exact hbh
            · rcases Nat.eq_or_lt_of_le hbi with heq | hlt
              · subst heq; exact hbh
              · exact ih (block + 1) _ h i (by omega) (Or.inr hclt)

/-- Claim C1, counterexample: for an encrypted file (`key_id_index ≠ 0xFFFF`,
not from a bundle) carrying a block hash that does NOT match the plaintext,
`read_file` with checksum checking enabled succeeds — the block-hash
assertion is skipped for encrypted files (lib.rs gates it on
`!is_encrypted`). -/
theorem read_file_encrypted_skips_blockhash_cx :
    readFile ⟨0, 0, 0, 1, 1, none, some [List.replicate 32 0]⟩ false true true [171] =
      .ok () ∧
    sha256Bytes [171] ≠ List.replicate 32 0 := by
  constructor <;> decide

/-- Claim C1 (corrected): during read-and-extract with checksum checking
enabled, the per-block SHA-256 assertion is performed only for files with
`is_encrypted` false: for such files every visited block with a block-hash
entry is asserted to equal SHA-256 of the chunk just read, while for
encrypted files (`key_id_index ≠ 0xFFFF` and not from a bundle) the block
hashes are ignored entirely. -/
theorem read_file_blockhash_only_unencrypted (fi : FileInfo)
    (fromBundle cryptoPresent doChecks : Bool) (data : List Nat) :
    (isEncryptedFlag fi fromBundle = true →
      readFile fi fromBundle cryptoPresent doChecks data =
        readFile { fi with block_hashes := none } fromBundle cryptoPresent doChecks
          data) ∧
    (isEncryptedFlag fi fromBundle = false → doChecks = true →
      readFile fi fromBundle cryptoPresent doChecks data = .ok () →
      ∀ i, i = 0 ∨ i * BLOCK_SIZE < fi.uncompressed_length →
        blockHashOk fi.block_hashes i
          ((data.drop (i * BLOCK_SIZE)).take
            (readAmt fi.uncompressed_length (i * BLOCK_SIZE))) = true) := by
  constructor
  · intro hEnc
    rw [readFile, readFile]
    have hEnc' : isEncryptedFlag { fi with block_hashes := none } fromBundle = true := hEnc
    rw [hEnc, hEnc']
    have hcomp : isCompressedFlag { fi with block_hashes := none } = isCompressedFlag fi :=
      rfl
    rw [hcomp]
    cases createReaderLayers true (isCompressedFlag fi) cryptoPresent with
    | ok layers =>
        simpa using readFileGo_bhs_irrelevant doChecks fi.block_hashes none fi.filehash
          fi.uncompressed_length data (fi.uncompressed_length + 1) 0 0 []
    | err e => rfl
    | panicWith m => rfl
  · intro hEnc hdc h i hcond
    subst hdc
    rw [readFile] at h
    rw [hEnc] at h
    cases hcr : createReaderLayers false (isCompressedFlag fi) cryptoPresent with
    | ok layers =>
        rw [hcr] at h
        dsimp only at h
        have h0 : readFileGo true true fi.block_hashes fi.filehash
            fi.uncompressed_length data (fi.uncompressed_length + 1)
            (0 * BLOCK_SIZE) 0 [] = .ok () := by
          simpa using h
        exact readFileGo_ok_blockhashes true fi.block_hashes fi.filehash
          fi.uncompressed_length data (fi.uncompressed_length + 1) 0 [] h0 i
          (Nat.zero_le i) (by simpa using hcond)
    | err e => rw [hcr] at h; cases h
    | panicWith m => rw [hcr] at h; cases h

/-- Claim C1, witness: the hypotheses of the unencrypted direction of
`read_file_blockhash_only_unencrypted` hold for a one-block plain file whose
block hash matches. -/
theorem read_file_blockhash_only_unencrypted_wit :
    blockHashOk (some [sha256Bytes [171]]) 0
      ((([171] : List Nat).drop (0 * BLOCK_SIZE)).take (readAmt 1 (0 * BLOCK_SIZE))) =
      true :=
  (read_file_blockhash_only_unencrypted
      ⟨0xFFFF, 0, 0, 1, 1, none, some [sha256Bytes [171]]⟩ false false true [171]).2
    (by decide) rfl (by decide) 0 (Or.inl rfl)

/-- Claim C10 (confirmed): in `EAppxFile::read_file`, each iteration reads
`min(65536, uncompressed_length - position)` bytes and the loop exits only
with `position = uncompressed_length` exactly, so the post-loop
`DataError("Invalid filesize")` branch is unreachable and `read_file` never
returns that error. -/
theorem read_file_never_invalid_filesize (fi : FileInfo)
    (fromBundle cryptoPresent doChecks : Bool) (data : List Nat) :
    readFile fi fromBundle cryptoPresent doChecks data ≠
      .err (.dataErr "Invalid filesize") := by
  rw [readFile]
  split
  · exact readFileGo_no_sizeErr _ _ _ _ _ _ _ _ _ _ (Nat.zero_le _)
  next e heq => exact absurd heq (createReaderLayers_ne_err _ _ _ _)
  · simp

end EAppx
